import Mathlib

/-!
Verification of the profile-scoring / job-matching core of the
`linked_profile_enhancer` repository.

The embedding models Python strings as `List Char`, Python numbers as exact
rationals (`ℚ`) respectively integers, and the dynamically typed profile
dictionaries consumed by the analyzer and the parser as an inductive `PyVal`
type.  Operations that can raise a Python exception (`len` of a non-sized
value, `.get` on a non-dict, iterating a non-iterable, regex operations on
non-strings) are modelled in an error monad `Except PyErr`, mirroring the
exact short-circuit order of the source.
-/

/-- Python strings are modelled as lists of characters. -/
abbrev Str := List Char

/-- Conversion from Lean string literals to the `Str` model. -/
def S (s : String) : Str := s.toList

/-- Python `str.lower()` (ASCII case folding, as used by the repository). -/
def lowerStr (s : Str) : Str := s.map Char.toLower

/-- Python's regex word character `\w` in ASCII: letters, digits, underscore. -/
def pyIsWordChar (c : Char) : Bool := c.isAlphanum || c = '_'

/-- Python's regex whitespace `\s` in ASCII. -/
def pyIsSpace (c : Char) : Bool :=
  c = ' ' || c = '\t' || c = '\n' || c = '\r' || c = '\x0b' || c = '\x0c'

/-- Accumulator for splitting a string into maximal runs of characters
satisfying `p` (the accumulator holds the current run reversed). -/
def runsByAux (p : Char → Bool) : List Char → List Char → List Str
  | [], acc => if acc.isEmpty then [] else [acc.reverse]
  | c :: cs, acc =>
    if p c then runsByAux p cs (c :: acc)
    else if acc.isEmpty then runsByAux p cs []
    else acc.reverse :: runsByAux p cs []

/-- The maximal runs of characters satisfying `p` in a string, in order. -/
def runsBy (p : Char → Bool) (s : Str) : List Str := runsByAux p s []

/-- Maximal runs of word characters (`\w+`), used to interpret the
word-boundary anchors `\b` of the repository's regexes. -/
def wordRuns (s : Str) : List Str := runsBy pyIsWordChar s

/-- `re.findall(r'\b[a-zA-Z]{n,}\b', s)`: the maximal word-character runs
that consist solely of ASCII letters and have length at least `n`. -/
def alphaTokens (n : Nat) (s : Str) : List Str :=
  (wordRuns s).filter (fun r => r.all Char.isAlpha && n ≤ r.length)

/-- `re.findall(r'\d+', s)`: maximal runs of ASCII digits. -/
def digitRuns (s : Str) : List Str := runsBy Char.isDigit s

/-- Decimal value of a digit string, as `int()` computes it. -/
def natOfDigits (s : Str) : Nat := s.foldl (fun a c => 10 * a + (c.toNat - 48)) 0

/-- Boolean prefix test on character lists. -/
def isPrefixB : Str → Str → Bool
  | [], _ => true
  | _ :: _, [] => false
  | a :: as, b :: bs => a = b && isPrefixB as bs

/-- Boolean substring test: Python's `needle in haystack` on strings. -/
def isInfixB : Str → Str → Bool
  | n, [] => n.isEmpty
  | n, c :: t => isPrefixB n (c :: t) || isInfixB n t

/-- Deduplication preserving the first occurrence of each element
(the iteration order of a Python `set`/`Counter` built from a list is
irrelevant for the properties proved below; first-occurrence order matches
`dict`/`Counter` insertion order). -/
def dedupFirstAux (seen : List Str) : List Str → List Str
  | [] => []
  | x :: xs =>
    if x ∈ seen then dedupFirstAux seen xs
    else x :: dedupFirstAux (x :: seen) xs

/-- Deduplication preserving first occurrences. -/
def dedupFirst (l : List Str) : List Str := dedupFirstAux [] l

/-- Stable insertion for a descending sort by count: the new element goes
after every element with a count at least as large (so that elements with
equal counts keep their original relative order, as CPython's stable
`sorted(..., reverse=True)` does in `Counter.most_common`). -/
def insertByCountDesc (cnt : Str → Nat) (x : Str) : List Str → List Str
  | [] => [x]
  | y :: ys => if cnt x ≤ cnt y then y :: insertByCountDesc cnt x ys else x :: y :: ys

/-- Stable sort by descending count. -/
def sortByCountDesc (cnt : Str → Nat) (l : List Str) : List Str :=
  l.foldl (fun acc x => insertByCountDesc cnt x acc) []

/-- `Counter(l).most_common(n)` keys: the distinct elements of `l` sorted by
descending multiplicity (ties in first-occurrence order), truncated to `n`. -/
def mostCommon (n : Nat) (l : List Str) : List Str :=
  (sortByCountDesc (fun k => l.count k) (dedupFirst l)).take n

/-- `' '.join` on already-checked strings. -/
def joinSpace : List Str → Str
  | [] => []
  | [x] => x
  | x :: y :: xs => x ++ ' ' :: joinSpace (y :: xs)

/-- Dynamically typed Python values, as far as the repository's profile
records need them. -/
inductive PyVal where
  | str (s : Str)
  | int (n : Int)
  | bool (b : Bool)
  | list (xs : List PyVal)
  | dict (kvs : List (Str × PyVal))
  | none

/-- The Python exceptions the modelled operations can raise. -/
inductive PyErr where
  | typeError
  | attributeError
deriving DecidableEq, Repr

/-- Explicit bind for the `Except PyErr` computations (kept as a plain
definition so that proofs control its unfolding). -/
def ebind : Except PyErr α → (α → Except PyErr β) → Except PyErr β
  | .error e, _ => .error e
  | .ok a, f => f a

@[simp] theorem ebind_ok (a : α) (f : α → Except PyErr β) : ebind (.ok a) f = f a := rfl

@[simp] theorem ebind_error (e : PyErr) (f : α → Except PyErr β) :
    ebind (Except.error e) f = .error e := rfl

/-- Python truthiness of the modelled values. -/
def truthy : PyVal → Bool
  | .str s => !s.isEmpty
  | .int n => n != 0
  | .bool b => b
  | .list xs => !xs.isEmpty
  | .dict kvs => !kvs.isEmpty
  | .none => false

/-- `len(v)`: defined for strings, lists and dicts, a `TypeError` otherwise. -/
def pyLen : PyVal → Except PyErr Nat
  | .str s => .ok s.length
  | .list xs => .ok xs.length
  | .dict kvs => .ok kvs.length
  | _ => .error .typeError

/-- Iterating a Python value (`for x in v`): lists yield their elements,
strings yield their characters as one-character strings, dicts yield their
keys; other values raise `TypeError`. -/
def pyIter : PyVal → Except PyErr (List PyVal)
  | .list xs => .ok xs
  | .str s => .ok (s.map fun c => PyVal.str [c])
  | .dict kvs => .ok (kvs.map fun kv => PyVal.str kv.1)
  | _ => .error .typeError

/-- First-match lookup in an association list (Python dicts hold each key
once, so this is dict lookup). -/
def pyLookup (kvs : List (Str × PyVal)) (k : Str) : Option PyVal :=
  match kvs with
  | [] => Option.none
  | (k2, v) :: rest => if k2 = k then some v else pyLookup rest k

/-- `v.get(k, dflt)`: dict lookup with default; `AttributeError` when `v` is
not a dict. -/
def pyGet (v : PyVal) (k : Str) (dflt : PyVal) : Except PyErr PyVal :=
  match v with
  | .dict kvs => .ok ((pyLookup kvs k).getD dflt)
  | _ => .error .attributeError

/-- `repr()` of the modelled values (list and dict elements are rendered via
`repr`, strings with surrounding single quotes). -/
def pyRepr : PyVal → Str
  | .str s => '\'' :: (s ++ ['\''])
  | .int n => S (toString n)
  | .bool b => if b then S "True" else S "False"
  | .none => S "None"
  | .list xs =>
      '[' :: (joinSpace ((xs.attach.map fun x => pyRepr x.1 ++ [',']).modifyLast
        fun l => l.dropLast) ++ [']'])
  | .dict kvs =>
      Char.ofNat 123 :: (joinSpace ((kvs.attach.map fun kv =>
        ('\'' :: (kv.1.1 ++ ['\''])) ++ S ": " ++ pyRepr kv.1.2 ++ [',']).modifyLast
        fun l => l.dropLast) ++ [Char.ofNat 125])
decreasing_by
  · have := List.sizeOf_lt_of_mem x.2; simp at this ⊢; omega
  · obtain ⟨⟨k1, v1⟩, hm⟩ := kv
    have := List.sizeOf_lt_of_mem hm
    simp at this ⊢
    omega

/-- `str()` of the modelled values: identity on strings, `repr`-based
rendering otherwise. -/
def pyStrOf : PyVal → Str
  | .str s => s
  | v => pyRepr v

/-!
## `LinkedInParser` (src/utils/linkedin_parser.py)
-/

/-- Characters kept by `_clean_text`'s second substitution
(`re.sub(r'[^\w\s\-.,!?()&/]', '', text)`). -/
def cleanAllowed (c : Char) : Bool :=
  pyIsWordChar c || pyIsSpace c || (S "-.,!?()&/").contains c

/-- `re.sub(r'\s+', ' ', s)`: each maximal whitespace run becomes one space.
The boolean argument records whether the previous character was whitespace. -/
def collapseWsAux : Bool → List Char → List Char
  | _, [] => []
  | prevWs, c :: cs =>
    if pyIsSpace c then
      if prevWs then collapseWsAux true cs else ' ' :: collapseWsAux true cs
    else c :: collapseWsAux false cs

/-- Whitespace-run collapsing. -/
def collapseWs (s : Str) : Str := collapseWsAux false s

/-- Python `str.strip()`. -/
def stripStr (s : Str) : Str :=
  ((s.dropWhile pyIsSpace).reverse.dropWhile pyIsSpace).reverse

/-- `LinkedInParser._clean_text` on an actual string: collapse whitespace,
strip, then drop disallowed characters. -/
def cleanTextStr (s : Str) : Str :=
  (stripStr (collapseWs s)).filter cleanAllowed

/-- `LinkedInParser._clean_text`: falsy inputs (including `None`, `0`, empty
containers) yield `""`; truthy non-strings raise (`re.sub` with a non-string). -/
def cleanText (v : PyVal) : Except PyErr Str :=
  if ¬ truthy v then .ok []
  else match v with
    | .str s => .ok (cleanTextStr s)
    | _ => .error .typeError

/-- The result record of `LinkedInParser.parse_duration`.  The Python code
initialises `duration_months` to `0` and never assigns it again. -/
structure DurationInfo where
  raw : Str
  start_date : Option Str
  end_date : Option Str
  is_current : Bool
  duration_months : Nat
deriving DecidableEq, Repr

/-- `re.findall(r'\b(19|20)\d{2}\b', s)`.  A match is a maximal word run of
exactly four digits starting with `19` or `20`; because the pattern has a
capture group, `findall` returns only the group text (the two-character
prefix), exactly as the Python code receives it. -/
def yearGroups (s : Str) : List Str :=
  ((wordRuns s).filter fun r =>
    r.length = 4 && r.all Char.isDigit && (isPrefixB (S "19") r || isPrefixB (S "20") r)).map
    (List.take 2)

/-- `LinkedInParser.parse_duration`. -/
def parse_duration (s : Str) : DurationInfo :=
  let base : DurationInfo :=
    { raw := s, start_date := Option.none, end_date := Option.none,
      is_current := false, duration_months := 0 }
  if s.isEmpty then base
  else
    let cur := isInfixB (S "present") (lowerStr s)
    match yearGroups s with
    | [] => { base with is_current := cur }
    | y0 :: rest =>
      { base with is_current := cur, start_date := some y0, end_date := rest.head? }

/-- A cleaned experience entry as built by `_clean_experience_list`.
The `achievements` field (`extract_achievements` applied to the cleaned
description) is omitted from the model: it is a total function of the
description and no claim refers to it. -/
structure CleanedExp where
  title : Str
  company : Str
  duration : Str
  description : Str
  location : Str
  duration_info : DurationInfo
deriving DecidableEq, Repr

/-- A cleaned education entry as built by `_clean_education_list`. -/
structure CleanedEdu where
  degree : Str
  school : Str
  year : Str
  field : Str
deriving DecidableEq, Repr

/-- The cleaned profile record returned by `clean_profile_data` (the
`parsed_at` wall-clock timestamp is omitted: it is impure and unused by the
scoring logic). -/
structure CleanedProfile where
  name : Str
  headline : Str
  location : Str
  about : Str
  experience : List CleanedExp
  education : List CleanedEdu
  skills : List Str
  connections : Int
  url : PyVal

/-- Dictionary keys used by the repository, as character lists. -/
def kName : Str := S "name"

def kHeadline : Str := S "headline"

def kLocation : Str := S "location"

def kAbout : Str := S "about"

def kExperience : Str := S "experience"

def kEducation : Str := S "education"

def kSkills : Str := S "skills"

def kConnections : Str := S "connections"

def kUrl : Str := S "url"

def kTitle : Str := S "title"

def kCompany : Str := S "company"

def kDuration : Str := S "duration"

def kDescription : Str := S "description"

def kDegree : Str := S "degree"

def kSchool : Str := S "school"

def kYear : Str := S "year"

def kField : Str := S "field"

/-- Whether a value is a Python mapping (`isinstance(x, dict)`). -/
def isDict : PyVal → Bool
  | .dict _ => true
  | _ => false

/-- One experience entry of `_clean_experience_list` (only called on dicts). -/
def cleanExp1 (x : PyVal) : Except PyErr CleanedExp :=
  ebind (pyGet x kTitle (.str [])) fun v1 => ebind (cleanText v1) fun ti =>
  ebind (pyGet x kCompany (.str [])) fun v2 => ebind (cleanText v2) fun co =>
  ebind (pyGet x kDuration (.str [])) fun v3 => ebind (cleanText v3) fun du =>
  ebind (pyGet x kDescription (.str [])) fun v4 => ebind (cleanText v4) fun de =>
  ebind (pyGet x kLocation (.str [])) fun v5 => ebind (cleanText v5) fun lo =>
  .ok { title := ti, company := co, duration := du, description := de, location := lo,
        duration_info := parse_duration du }

/-- The entry loop of `_clean_experience_list`: non-dict entries are skipped. -/
def cleanExpEntries : List PyVal → Except PyErr (List CleanedExp)
  | [] => .ok []
  | x :: xs =>
    if isDict x then
      ebind (cleanExp1 x) fun e => ebind (cleanExpEntries xs) fun rest => .ok (e :: rest)
    else cleanExpEntries xs

/-- `LinkedInParser._clean_experience_list` (including the implicit iteration
of its argument). -/
def cleanExperienceList (v : PyVal) : Except PyErr (List CleanedExp) :=
  ebind (pyIter v) fun xs => cleanExpEntries xs

/-- One education entry of `_clean_education_list` (only called on dicts). -/
def cleanEdu1 (x : PyVal) : Except PyErr CleanedEdu :=
  ebind (pyGet x kDegree (.str [])) fun v1 => ebind (cleanText v1) fun dg =>
  ebind (pyGet x kSchool (.str [])) fun v2 => ebind (cleanText v2) fun sc =>
  ebind (pyGet x kYear (.str [])) fun v3 => ebind (cleanText v3) fun yr =>
  ebind (pyGet x kField (.str [])) fun v4 => ebind (cleanText v4) fun fd =>
  .ok { degree := dg, school := sc, year := yr, field := fd }

/-- The entry loop of `_clean_education_list`: non-dict entries are skipped. -/
def cleanEduEntries : List PyVal → Except PyErr (List CleanedEdu)
  | [] => .ok []
  | x :: xs =>
    if isDict x then
      ebind (cleanEdu1 x) fun e => ebind (cleanEduEntries xs) fun rest => .ok (e :: rest)
    else cleanEduEntries xs

/-- `LinkedInParser._clean_education_list`. -/
def cleanEducationList (v : PyVal) : Except PyErr (List CleanedEdu) :=
  ebind (pyIter v) fun xs => cleanEduEntries xs

/-- The entry loop of `_clean_skills_list`: each entry is converted with
`str()`, cleaned, and kept unless empty or a case-insensitive duplicate of an
already seen skill (`seen` holds the lowercased kept skills). -/
def cleanSkillsAux (seen : List Str) : List PyVal → List Str
  | [] => []
  | e :: es =>
    let s0 := pyStrOf e
    let cs := if s0.isEmpty then [] else cleanTextStr s0
    if !cs.isEmpty && lowerStr cs ∉ seen then
      cs :: cleanSkillsAux (lowerStr cs :: seen) es
    else cleanSkillsAux seen es

/-- `LinkedInParser._clean_skills_list`. -/
def cleanSkillsList (v : PyVal) : Except PyErr (List Str) :=
  if ¬ truthy v then .ok []
  else ebind (pyIter v) fun xs => .ok (cleanSkillsAux [] xs)

/-- `LinkedInParser._parse_connections`. -/
def parseConnections (v : PyVal) : Except PyErr Int :=
  if ¬ truthy v then .ok 0
  else match v with
    | .str s =>
      match digitRuns s with
      | n :: _ => .ok (natOfDigits n)
      | [] => if isInfixB (S "500+") s then .ok 500 else .ok 0
    | _ => .error .typeError

/-- `LinkedInParser.clean_profile_data`, field order as in the source. -/
def cleanProfileData (raw : PyVal) : Except PyErr CleanedProfile :=
  ebind (pyGet raw kName (.str [])) fun v1 => ebind (cleanText v1) fun nm =>
  ebind (pyGet raw kHeadline (.str [])) fun v2 => ebind (cleanText v2) fun hd =>
  ebind (pyGet raw kLocation (.str [])) fun v3 => ebind (cleanText v3) fun lc =>
  ebind (pyGet raw kAbout (.str [])) fun v4 => ebind (cleanText v4) fun ab =>
  ebind (pyGet raw kExperience (.list [])) fun ev => ebind (cleanExperienceList ev) fun exps =>
  ebind (pyGet raw kEducation (.list [])) fun dv => ebind (cleanEducationList dv) fun edus =>
  ebind (pyGet raw kSkills (.list [])) fun sv => ebind (cleanSkillsList sv) fun sks =>
  ebind (pyGet raw kConnections (.str [])) fun cv => ebind (parseConnections cv) fun conn =>
  ebind (pyGet raw kUrl (.str [])) fun url =>
  .ok { name := nm, headline := hd, location := lc, about := ab, experience := exps,
        education := edus, skills := sks, connections := conn, url := url }

/-!
## `AnalyzerAgent` (src/agents/analyzer_agent.py)
-/

/-- The fixed 17-word action-verb vocabulary (`AnalyzerAgent.action_words`). -/
def actionWords : List Str :=
  [S "led", S "managed", S "developed", S "created", S "implemented", S "designed",
   S "built", S "improved", S "increased", S "reduced", S "optimized", S "delivered",
   S "achieved", S "launched", S "established", S "coordinated", S "executed"]

/-- The fixed 12-term technical vocabulary of `_analyze_keywords`. -/
def techKeywords : List Str :=
  [S "python", S "javascript", S "react", S "node.js", S "sql", S "mongodb",
   S "aws", S "docker", S "kubernetes", S "git", S "agile", S "scrum"]

/-- The keyword-analysis record of `_analyze_keywords`. -/
structure KeywordAnalysis where
  found_keywords : List Str
  missing_keywords : List Str
  keyword_density : Nat
deriving DecidableEq, Repr

/-- The content-quality record of `_assess_content_quality`. -/
structure ContentQuality where
  headline_length : Nat
  about_length : Nat
  has_quantified_achievements : Bool
  uses_action_words : Bool
deriving DecidableEq, Repr

/-- The analysis record returned by `analyze_profile`. -/
structure AnalysisResult where
  completeness_score : ℚ
  keyword_analysis : KeywordAnalysis
  content_quality : ContentQuality
  strengths : List Str
  weaknesses : List Str
  job_match_score : ℚ
  recommendations : List Str
  overall_rating : Str
deriving DecidableEq, Repr

/-- `AnalyzerAgent._empty_analysis`. -/
def emptyAnalysis : AnalysisResult :=
  { completeness_score := 0,
    keyword_analysis := { found_keywords := [], missing_keywords := [], keyword_density := 0 },
    content_quality := { headline_length := 0, about_length := 0,
                         has_quantified_achievements := false, uses_action_words := false },
    strengths := [],
    weaknesses := [S "Profile data not available"],
    job_match_score := 0,
    recommendations := [S "Please provide valid profile data"],
    overall_rating := S "Unknown" }

/-- The conjunct `v and len(v) > n` of `_calculate_completeness` (short
circuits before `len` when `v` is falsy). -/
def condLenGt (v : PyVal) (n : Nat) : Except PyErr Bool :=
  if truthy v then ebind (pyLen v) (fun m => .ok (n < m)) else .ok false

/-- `AnalyzerAgent._calculate_completeness`: the ten-point rubric,
`(score / total_points) * 100` with `total_points = 10`. -/
def calcCompleteness (pd : PyVal) : Except PyErr ℚ :=
  ebind (pyGet pd kName PyVal.none) fun nm =>
  ebind (pyGet pd kHeadline PyVal.none) fun hd =>
  ebind (pyGet pd kAbout (.str [])) fun ab =>
  ebind (condLenGt ab 50) fun b3 =>
  ebind (condLenGt ab 200) fun b4 =>
  ebind (pyGet pd kExperience (.list [])) fun ex =>
  ebind (pyLen ex) fun ne =>
  ebind (pyGet pd kEducation PyVal.none) fun ed =>
  ebind (pyGet pd kSkills (.list [])) fun sk =>
  ebind (pyLen sk) fun ns =>
  ebind (pyGet pd kLocation PyVal.none) fun lc =>
  let score : Nat :=
    (if truthy nm then 1 else 0) + (if truthy hd then 1 else 0) +
    (if b3 then 1 else 0) + (if b4 then 1 else 0) +
    (if 1 ≤ ne then 1 else 0) + (if 2 ≤ ne then 1 else 0) +
    (if truthy ed then 1 else 0) +
    (if 5 ≤ ns then 1 else 0) + (if 10 ≤ ns then 1 else 0) +
    (if truthy lc then 1 else 0)
  .ok ((score : ℚ) / 10 * 100)

/-- The experience loop of `_extract_all_text`: for each entry, append its
`description` then its `title` (both values as found, type-checked only by
the final `join`). -/
def collectExpTexts : List PyVal → Except PyErr (List PyVal)
  | [] => .ok []
  | e :: es =>
    ebind (pyGet e kDescription (.str [])) fun d =>
    ebind (pyGet e kTitle (.str [])) fun t =>
    ebind (collectExpTexts es) fun rest => .ok (d :: t :: rest)

/-- `' '.join(parts)`: raises `TypeError` unless every part is a string. -/
def pyJoinSpace (parts : List PyVal) : Except PyErr Str :=
  match parts with
  | [] => .ok []
  | .str s :: rest =>
    ebind (pyJoinSpace rest) fun r => .ok (if rest.isEmpty then s else s ++ ' ' :: r)
  | _ => .error .typeError

/-- `AnalyzerAgent._extract_all_text`. -/
def extractAllText (pd : PyVal) : Except PyErr Str :=
  ebind (pyGet pd kHeadline (.str [])) fun h =>
  ebind (pyGet pd kAbout (.str [])) fun a =>
  ebind (pyGet pd kExperience (.list [])) fun ex =>
  ebind (pyIter ex) fun exps =>
  ebind (collectExpTexts exps) fun expParts =>
  ebind (pyGet pd kSkills (.list [])) fun sk =>
  ebind (pyIter sk) fun skl =>
  pyJoinSpace (h :: a :: (expParts ++ skl))

/-- `AnalyzerAgent._has_numbers` (`re.search(r'\d+', text)`): requires a
string argument. -/
def pyHasNumbers : PyVal → Except PyErr Bool
  | .str s => .ok (s.any Char.isDigit)
  | _ => .error .typeError

/-- `AnalyzerAgent._has_action_words` (`text.lower()` then substring tests). -/
def pyHasActionWords : PyVal → Except PyErr Bool
  | .str s => .ok (actionWords.any fun w => isInfixB w (lowerStr s))
  | _ => .error .attributeError

/-- `AnalyzerAgent._analyze_keywords`. -/
def analyzeKeywords (pd : PyVal) (jd : Str) : Except PyErr KeywordAnalysis :=
  ebind (extractAllText pd) fun t0 =>
  let pt := lowerStr t0
  let found := techKeywords.filter fun k => isInfixB (lowerStr k) pt
  let missing : List Str :=
    if jd.isEmpty then []
    else (mostCommon 10 (alphaTokens 3 (lowerStr jd))).filter fun k =>
      !isInfixB k pt && 3 < k.length
  .ok { found_keywords := found, missing_keywords := missing.take 5,
        keyword_density := found.length }

/-- `AnalyzerAgent._assess_content_quality` (dict-literal evaluation order). -/
def assessContentQuality (pd : PyVal) : Except PyErr ContentQuality :=
  ebind (pyGet pd kAbout (.str [])) fun ab =>
  ebind (pyGet pd kHeadline (.str [])) fun hd =>
  ebind (pyLen hd) fun nh =>
  ebind (pyLen ab) fun na =>
  ebind (pyHasNumbers ab) fun hx =>
  ebind (pyHasActionWords ab) fun aw =>
  .ok { headline_length := nh, about_length := na,
        has_quantified_achievements := hx, uses_action_words := aw }

/-- `AnalyzerAgent._identify_strengths`. -/
def identifyStrengths (pd : PyVal) : Except PyErr (List Str) :=
  ebind (pyGet pd kExperience (.list [])) fun ex => ebind (pyLen ex) fun ne =>
  ebind (pyGet pd kSkills (.list [])) fun sk => ebind (pyLen sk) fun ns =>
  ebind (pyGet pd kAbout (.str [])) fun ab => ebind (pyLen ab) fun na =>
  .ok ((if 3 ≤ ne then [S "Good work experience history"] else []) ++
       (if 10 ≤ ns then [S "Comprehensive skills list"] else []) ++
       (if 200 < na then [S "Detailed about section"] else []))

/-- `AnalyzerAgent._identify_weaknesses` (the first condition short-circuits
before `len` when `about` is falsy). -/
def identifyWeaknesses (pd : PyVal) : Except PyErr (List Str) :=
  ebind (pyGet pd kAbout PyVal.none) fun ab0 =>
  ebind (if ¬ truthy ab0 then .ok true
         else ebind (pyGet pd kAbout (.str [])) fun ab =>
              ebind (pyLen ab) fun n => .ok (n < 100)) fun w1 =>
  ebind (pyGet pd kSkills (.list [])) fun sk => ebind (pyLen sk) fun ns =>
  ebind (pyGet pd kAbout (.str [])) fun ab2 => ebind (pyHasNumbers ab2) fun hn =>
  .ok ((if w1 then [S "About section needs improvement"] else []) ++
       (if ns < 5 then [S "Limited skills listed"] else []) ++
       (if !hn then [S "Lacks quantified achievements"] else []))

/-- `AnalyzerAgent._calculate_job_match`. -/
def calcJobMatch (pd : PyVal) (jd : Str) : Except PyErr ℚ :=
  if jd.isEmpty then .ok 0
  else
    ebind (extractAllText pd) fun t0 =>
    let pt := lowerStr t0
    let ks := dedupFirst (alphaTokens 4 (lowerStr jd))
    let m := (ks.filter fun k => isInfixB k pt).length
    .ok (if ks.isEmpty then 0 else min ((m : ℚ) / ks.length * 100) 100)

/-- `AnalyzerAgent._generate_recommendations` (the `profile_data` parameter
of the source is unused by its body and omitted here). -/
def generateRecommendations (weaknesses : List Str) : List Str :=
  weaknesses.foldr
    (fun w acc =>
      if isInfixB (S "about section") (lowerStr w) then
        S "Add a compelling about section with 150-300 words describing your expertise" :: acc
      else if isInfixB (S "skills") (lowerStr w) then
        S "Add more relevant skills to reach at least 10 skills" :: acc
      else if isInfixB (S "quantified") (lowerStr w) then
        S "Include specific numbers and metrics in your descriptions" :: acc
      else acc)
    []

/-- `AnalyzerAgent._calculate_overall_rating`. -/
def overallRating (completeness : ℚ) (cq : ContentQuality) (jobMatch : ℚ) : Str :=
  let s0 := completeness * (4 / 10)
  let s1 := if cq.has_quantified_achievements then s0 + 10 else s0
  let s2 := if cq.uses_action_words then s1 + 10 else s1
  let s3 := if 150 < cq.about_length then s2 + 10 else s2
  let s4 := if 0 < jobMatch then s3 + jobMatch * (3 / 10) else s3
  if 80 ≤ s4 then S "Excellent"
  else if 60 ≤ s4 then S "Good"
  else if 40 ≤ s4 then S "Fair"
  else S "Needs Improvement"

/-- The body of the `try` block of `analyze_profile`, in source order. -/
def analyzeBody (pd : PyVal) (jd : Str) : Except PyErr AnalysisResult :=
  ebind (calcCompleteness pd) fun comp =>
  ebind (analyzeKeywords pd jd) fun ka =>
  ebind (assessContentQuality pd) fun cq =>
  ebind (identifyStrengths pd) fun st =>
  ebind (identifyWeaknesses pd) fun wk =>
  ebind (if jd.isEmpty then .ok 0 else calcJobMatch pd jd) fun jm =>
  .ok { completeness_score := comp, keyword_analysis := ka, content_quality := cq,
        strengths := st, weaknesses := wk, job_match_score := jm,
        recommendations := generateRecommendations wk,
        overall_rating := overallRating comp cq jm }

/-- `AnalyzerAgent.analyze_profile`: falsy input short-circuits to the empty
analysis, and any exception of the body is caught and converted to it. -/
def analyzeProfile (pd : PyVal) (jd : Str) : AnalysisResult :=
  if ¬ truthy pd then emptyAnalysis
  else
    match analyzeBody pd jd with
    | .error _ => emptyAnalysis
    | .ok r => r

/-!
## `JobMatcher` (src/utils/job_matcher.py)
-/

/-- The fixed synonym table `JobMatcher.skill_synonyms`. -/
def skillSynonyms : List (Str × List Str) :=
  [(S "javascript", [S "js", S "ecmascript", S "node.js", S "nodejs"]),
   (S "python", [S "py", S "django", S "flask", S "fastapi"]),
   (S "react", [S "reactjs", S "react.js"]),
   (S "angular", [S "angularjs", S "angular.js"]),
   (S "machine learning", [S "ml", S "ai", S "artificial intelligence"]),
   (S "database", [S "db", S "sql", S "mysql", S "postgresql", S "mongodb"])]

/-- `JobMatcher._are_skills_similar`: synonym-table equivalence, then
substring containment in either direction (both sides lowercased). -/
def areSkillsSimilar (s1 s2 : Str) : Bool :=
  let l1 := lowerStr s1
  let l2 := lowerStr s2
  skillSynonyms.any (fun ms =>
    (l1 == ms.1 || ms.2.contains l1) && (l2 == ms.1 || ms.2.contains l2))
  || isInfixB l1 l2 || isInfixB l2 l1

/-- The result record of `JobMatcher.find_skill_gaps`. -/
structure SkillGaps where
  matching_skills : List Str
  missing_skills : List Str
  match_percentage : ℚ
deriving DecidableEq, Repr

/-- The classification test of the `find_skill_gaps` loop: a (lowercased)
job skill matches when it occurs verbatim among the lowercased profile
skills, or some profile skill is similar to it. -/
def gapMatches (psl : List Str) (j : Str) : Bool :=
  psl.contains j || psl.any fun p => areSkillsSimilar p j

/-- `JobMatcher.find_skill_gaps` (the loop appends each job skill to exactly
one of the two lists, in order, which is a partition by `gapMatches`;
`match_percentage = len(matching) / max(len(job_skills), 1) * 100`). -/
def find_skill_gaps (profile_skills job_requirements : List Str) : SkillGaps :=
  let psl := profile_skills.map lowerStr
  let jsl := job_requirements.map lowerStr
  let matching := jsl.filter (gapMatches psl)
  let missing := jsl.filter fun j => !gapMatches psl j
  { matching_skills := matching, missing_skills := missing,
    match_percentage := (matching.length : ℚ) / (max jsl.length 1) * 100 }

/-- The result of `_calculate_skills_match`: in the empty-requirements branch
the source returns `score = 100` with a details dict that has no
`match_percentage` key, hence `gaps = none` there. -/
structure SkillsMatch where
  score : ℚ
  gaps : Option SkillGaps
deriving DecidableEq, Repr

/-- `JobMatcher._calculate_skills_match`. -/
def calculate_skills_match (profile_skills job_skills : List Str) : SkillsMatch :=
  if job_skills.isEmpty then { score := 100, gaps := Option.none }
  else
    let g := find_skill_gaps profile_skills job_skills
    { score := g.match_percentage, gaps := some g }

/-- An experience entry as read by `_calculate_experience_match`: the code
uses `exp.get('duration_info', {}).get('duration_months')` (with Python
truthiness), `exp.get('title', '')` and `exp.get('description', '')`. -/
structure MatchExp where
  title : Str
  description : Str
  duration_months : ℚ
deriving DecidableEq, Repr

/-- The parsed job requirements consumed by the matcher sub-scores
(`skills`, `keywords`, `experience_years` of `_parse_job_requirements`). -/
structure JobReq where
  skills : List Str
  keywords : List Str
  experience_years : Nat
deriving DecidableEq, Repr

/-- Round half to even (the rounding of Python's built-in `round`). -/
def rhe (q : ℚ) : ℤ :=
  let f := ⌊q⌋
  let r := q - f
  if r < 1 / 2 then f
  else if 1 / 2 < r then f + 1
  else if f % 2 = 0 then f else f + 1

/-- Python `round(q, 2)`. -/
def round2 (q : ℚ) : ℚ := (rhe (q * 100) : ℚ) / 100

/-- Python `round(q, 1)`. -/
def round1 (q : ℚ) : ℚ := (rhe (q * 10) : ℚ) / 10

/-- The `total_years` accumulation of `_calculate_experience_match`
(`duration_months / 12` summed over entries with truthy `duration_months`). -/
def totalYears (exps : List MatchExp) : ℚ :=
  (exps.map fun e => if e.duration_months ≠ 0 then e.duration_months / 12 else 0).sum

/-- The `relevant_roles` count of `_calculate_experience_match`: entries
whose lowercased `"title description"` text contains one of the first ten
job keywords. -/
def relevantCount (exps : List MatchExp) (kws : List Str) : Nat :=
  (exps.filter fun e =>
    (kws.take 10).any fun k => isInfixB k (lowerStr (e.title ++ ' ' :: e.description))).length

/-- The result record of `_calculate_experience_match` (score plus its
`details` payload). -/
structure ExpMatch where
  score : ℚ
  relevant_roles : Nat
  total_experience : ℚ
  required_experience : Nat
deriving DecidableEq, Repr

/-- `JobMatcher._calculate_experience_match`. -/
def calculate_experience_match (exps : List MatchExp) (jr : JobReq) : ExpMatch :=
  let ty := totalYears exps
  let rel := relevantCount exps jr.keywords
  let score : ℚ :=
    if 0 < jr.experience_years then
      min (ty / (jr.experience_years : ℚ)) 1 * 70 + (rel : ℚ) / (max exps.length 1) * 30
    else 80
  { score := round2 score, relevant_roles := rel, total_experience := round1 ty,
    required_experience := jr.experience_years }

/-!
## Encoding cleaned profiles back into dynamic dictionaries

The analyzer receives the cleaned profile as a Python dict; `encodeProfile`
renders a `CleanedProfile` in exactly the shape `clean_profile_data` builds.
-/

/-- Encoding of a `DurationInfo` as the dict `parse_duration` returns. -/
def encodeDurInfo (d : DurationInfo) : PyVal :=
  .dict [(S "raw", .str d.raw),
         (S "start_date", match d.start_date with | some y => .str y | _ => PyVal.none),
         (S "end_date", match d.end_date with | some y => .str y | _ => PyVal.none),
         (S "is_current", .bool d.is_current),
         (S "duration_months", .int d.duration_months)]

/-- Encoding of a cleaned experience entry (field order of the source). -/
def encodeExp (e : CleanedExp) : PyVal :=
  .dict [(kTitle, .str e.title), (kCompany, .str e.company),
         (kDuration, .str e.duration), (kDescription, .str e.description),
         (kLocation, .str e.location),
         (S "duration_info", encodeDurInfo e.duration_info)]

/-- Encoding of a cleaned education entry. -/
def encodeEdu (e : CleanedEdu) : PyVal :=
  .dict [(kDegree, .str e.degree), (kSchool, .str e.school),
         (kYear, .str e.year), (kField, .str e.field)]

/-- Encoding of a cleaned profile as the dict handed to the analyzer. -/
def encodeProfile (p : CleanedProfile) : PyVal :=
  .dict [(kName, .str p.name), (kHeadline, .str p.headline),
         (kLocation, .str p.location), (kAbout, .str p.about),
         (kExperience, .list (p.experience.map encodeExp)),
         (kEducation, .list (p.education.map encodeEdu)),
         (kSkills, .list (p.skills.map PyVal.str)),
         (kConnections, .int p.connections), (kUrl, p.url)]

theorem pyGet_encode_name (p : CleanedProfile) (d : PyVal) :
    pyGet (encodeProfile p) kName d = .ok (.str p.name) := rfl

theorem pyGet_encode_headline (p : CleanedProfile) (d : PyVal) :
    pyGet (encodeProfile p) kHeadline d = .ok (.str p.headline) := rfl

theorem pyGet_encode_location (p : CleanedProfile) (d : PyVal) :
    pyGet (encodeProfile p) kLocation d = .ok (.str p.location) := rfl

theorem pyGet_encode_about (p : CleanedProfile) (d : PyVal) :
    pyGet (encodeProfile p) kAbout d = .ok (.str p.about) := rfl

theorem pyGet_encode_experience (p : CleanedProfile) (d : PyVal) :
    pyGet (encodeProfile p) kExperience d = .ok (.list (p.experience.map encodeExp)) := rfl

theorem pyGet_encode_education (p : CleanedProfile) (d : PyVal) :
    pyGet (encodeProfile p) kEducation d = .ok (.list (p.education.map encodeEdu)) := rfl

theorem pyGet_encode_skills (p : CleanedProfile) (d : PyVal) :
    pyGet (encodeProfile p) kSkills d = .ok (.list (p.skills.map PyVal.str)) := rfl

theorem pyGet_encodeExp_title (e : CleanedExp) (d : PyVal) :
    pyGet (encodeExp e) kTitle d = .ok (.str e.title) := rfl

theorem pyGet_encodeExp_description (e : CleanedExp) (d : PyVal) :
    pyGet (encodeExp e) kDescription d = .ok (.str e.description) := rfl

/-!
## Specification-side expressions

These definitions transcribe the formulas named by the specification; the
claim theorems relate them to the code-derived functions above.
-/

/-- The specification's ten-point completeness rubric, read off §4.2 of the
spec: one point per satisfied check. -/
def rubricCount (p : CleanedProfile) : Nat :=
  (if p.name ≠ [] then 1 else 0) + (if p.headline ≠ [] then 1 else 0) +
  (if 50 < p.about.length then 1 else 0) + (if 200 < p.about.length then 1 else 0) +
  (if 1 ≤ p.experience.length then 1 else 0) + (if 2 ≤ p.experience.length then 1 else 0) +
  (if p.education ≠ [] then 1 else 0) +
  (if 5 ≤ p.skills.length then 1 else 0) + (if 10 ≤ p.skills.length then 1 else 0) +
  (if p.location ≠ [] then 1 else 0)

/-- The per-experience text fragments of `_extract_all_text` (description
first, then title, as in the source loop). -/
def expTexts : List CleanedExp → List Str
  | [] => []
  | e :: es => e.description :: e.title :: expTexts es

/-- The concatenated profile text of `_extract_all_text` on a cleaned
profile: headline, about, each experience's description and title, then the
skills, joined by single spaces. -/
def profileText (p : CleanedProfile) : Str :=
  joinSpace (p.headline :: p.about :: (expTexts p.experience ++ p.skills))

/-- The deduplicated keyword set extracted from a job description by
`_calculate_job_match` (alphabetic runs of length at least four). -/
def jobKeywordSet (jd : Str) : List Str := dedupFirst (alphaTokens 4 (lowerStr jd))

/-- The number of job keywords found (case-insensitively, as substrings) in
the profile text. -/
def jobMatchCount (p : CleanedProfile) (jd : Str) : Nat :=
  ((jobKeywordSet jd).filter fun k => isInfixB k (lowerStr (profileText p))).length

/-- Synonym equivalence through the fixed table, as the specification words
it: both skills name the same canonical entry (either as the canonical term
or as one of its listed alternates). -/
def synonymEquiv (a b : Str) : Prop :=
  ∃ ms ∈ skillSynonyms, (a = ms.1 ∨ a ∈ ms.2) ∧ (b = ms.1 ∨ b ∈ ms.2)

/-!
## Supporting lemmas
-/

theorem ebind_eq_ok {α β : Type} {x : Except PyErr α} {f : α → Except PyErr β} {b : β}
    (h : ebind x f = .ok b) : ∃ a, x = .ok a ∧ f a = .ok b := by
  cases x with
  | error e => simp [ebind] at h
  | ok a => exact ⟨a, rfl, h⟩

theorem ite_one_zero_le (c : Prop) [Decidable c] : (if c then (1 : ℕ) else 0) ≤ 1 := by
  split <;> omega

/-!
## Claim C1
-/

/-- C1: for every empty/falsy `profile_data` input, and for every input on
which the scoring body raises, `analyze_profile` returns the fixed
empty-analysis sentinel (completeness 0, job match 0,
weaknesses `["Profile data not available"]`, rating `"Unknown"`); being a
total function into `AnalysisResult`, it never propagates an exception:
every run either returns the sentinel or the successful body result. -/
theorem analyze_profile_empty_and_exception_safe (pd : PyVal) (jd : Str) :
    (¬ truthy pd → analyzeProfile pd jd = emptyAnalysis) ∧
    (∀ e, analyzeBody pd jd = .error e → analyzeProfile pd jd = emptyAnalysis) ∧
    (analyzeProfile pd jd = emptyAnalysis ∨ analyzeBody pd jd = .ok (analyzeProfile pd jd)) ∧
    emptyAnalysis.completeness_score = 0 ∧ emptyAnalysis.job_match_score = 0 ∧
    emptyAnalysis.weaknesses = [S "Profile data not available"] ∧
    emptyAnalysis.overall_rating = S "Unknown" := by
  refine ⟨?_, ?_, ?_, rfl, rfl, rfl, rfl⟩
  · intro h
    unfold analyzeProfile
    rw [if_pos h]
  · intro e he
    unfold analyzeProfile
    split
    · rfl
    · rw [he]
  · unfold analyzeProfile
    split
    · exact Or.inl rfl
    · cases hb : analyzeBody pd jd with
      | error e => exact Or.inl rfl
      | ok r => exact Or.inr rfl

/-- Concrete input on which the scoring body raises: a truthy profile dict
whose `experience` field is an integer (`len` fails inside
`_calculate_completeness`). -/
def pdErrC1 : PyVal := .dict [(kExperience, .int 5)]

theorem analyze_profile_empty_and_exception_safe_case :
    analyzeProfile PyVal.none [] = emptyAnalysis ∧
    analyzeBody pdErrC1 [] = .error .typeError ∧
    analyzeProfile pdErrC1 [] = emptyAnalysis :=
  ⟨(analyze_profile_empty_and_exception_safe PyVal.none []).1 (by decide),
   rfl,
   (analyze_profile_empty_and_exception_safe pdErrC1 []).2.1 PyErr.typeError rfl⟩

/-!
## Claim C4
-/

/-- C4 (counterexample): with empty job requirements, `find_skill_gaps`
reports `match_percentage = 0` — not `100` as the claim states — because the
`100` convention lives only in `_calculate_skills_match`'s short-circuit,
which never reaches `find_skill_gaps`. -/
theorem skill_gap_empty_percentage_cx :
    (find_skill_gaps [S "python"] []).match_percentage = 0 ∧ (0 : ℚ) ≠ 100 := by
  constructor
  · simp [find_skill_gaps]
  · norm_num

/-- C4 (amended): when the required job skills are empty the skills-match
sub-score (`_calculate_skills_match`) is the constant `100`, independent of
the profile skills, by short-circuiting before `find_skill_gaps`; the
`match_percentage` computed by `find_skill_gaps` itself on an empty
requirement list is `0` (`0 / max(0,1) * 100`). -/
theorem skill_gap_empty_amended (ps : List Str) :
    (calculate_skills_match ps []).score = 100 ∧
    (calculate_skills_match ps []).gaps = Option.none ∧
    (find_skill_gaps ps []).match_percentage = 0 := by
  refine ⟨rfl, rfl, ?_⟩
  simp [find_skill_gaps]

/-!
## Claim C5
-/

/-- Seven experience entries, one relevant to the keyword `python`, none
with a truthy `duration_months`. -/
def cxExps : List MatchExp :=
  [{ title := S "python dev", description := [], duration_months := 0 },
   { title := S "aaa", description := [], duration_months := 0 },
   { title := S "aaa", description := [], duration_months := 0 },
   { title := S "aaa", description := [], duration_months := 0 },
   { title := S "aaa", description := [], duration_months := 0 },
   { title := S "aaa", description := [], duration_months := 0 },
   { title := S "aaa", description := [], duration_months := 0 }]

/-- A job requirement of five years with the single keyword `python`. -/
def cxJr : JobReq := { skills := [], keywords := [S "python"], experience_years := 5 }

/-- C5 (counterexample): the returned experience sub-score is the formula
value rounded to two decimals, not the formula value itself: with seven
entries, one relevant, no tenure and five required years the formula gives
`30/7` but the code returns `round(30/7, 2) = 4.29`. -/
theorem experience_match_rounding_cx :
    (calculate_experience_match cxExps cxJr).score = 429 / 100 ∧
    ((429 : ℚ) / 100) ≠
      min (totalYears cxExps / (cxJr.experience_years : ℚ)) 1 * 70 +
        (relevantCount cxExps cxJr.keywords : ℚ) / (cxExps.length : ℚ) * 30 := by
  have hty : totalYears cxExps = 0 := by norm_num [totalYears, cxExps]
  have hrel : relevantCount cxExps cxJr.keywords = 1 := by decide
  have hlen : cxExps.length = 7 := by decide
  have h5 : (cxJr.experience_years : ℚ) = 5 := by norm_num [cxJr]
  constructor
  · simp only [calculate_experience_match, hty, hrel, hlen]
    rw [if_pos (by decide : 0 < cxJr.experience_years), h5]
    have harg : min ((0 : ℚ) / 5) 1 * 70 + ((1 : ℕ) : ℚ) / ((max 7 1 : ℕ) : ℚ) * 30
        = 3000 / 7 / 100 := by
      rw [show max 7 1 = 7 from rfl]
      norm_num
    rw [harg]
    have hf : ⌊(3000 : ℚ) / 7 / 100 * 100⌋ = 428 := by
      rw [show (3000 : ℚ) / 7 / 100 * 100 = 3000 / 7 by ring]
      rw [Int.floor_eq_iff]
      norm_num
    simp only [round2, rhe, hf]
    norm_num
  · rw [hty, hrel, hlen, h5]
    norm_num

/-- The spec's own scenario: required five years, total experience 2.5 years
(30 truthy months), no relevant roles. -/
def scExps : List MatchExp := [{ title := S "eng", description := [], duration_months := 30 }]

/-- Requirements for the scenario: five years, no keywords. -/
def scJr : JobReq := { skills := [], keywords := [], experience_years := 5 }

/-- C5 (amended): if the required `experience_years` is positive the
experience sub-score equals `min(total_years/required, 1)·70 +
relevant_count/max(experience_count, 1)·30` rounded half-to-even to two
decimal places (Python `round(score, 2)`); otherwise it is the constant
`80`.  In the spec's scenario (required 5, total 2.5 years, 0 relevant
roles) the sub-score is exactly `35`. -/
theorem experience_match_amended (exps : List MatchExp) (jr : JobReq) :
    (0 < jr.experience_years →
      (calculate_experience_match exps jr).score =
        round2 (min (totalYears exps / (jr.experience_years : ℚ)) 1 * 70 +
          (relevantCount exps jr.keywords : ℚ) / ((max exps.length 1 : ℕ) : ℚ) * 30)) ∧
    (jr.experience_years = 0 → (calculate_experience_match exps jr).score = 80) ∧
    (calculate_experience_match scExps scJr).score = 35 := by
  refine ⟨fun h => ?_, fun h => ?_, ?_⟩
  · simp only [calculate_experience_match]
    rw [if_pos h]
  · simp only [calculate_experience_match]
    rw [if_neg (by omega)]
    have hf : ⌊(80 : ℚ) * 100⌋ = 8000 := by
      rw [Int.floor_eq_iff]
      norm_num
    simp only [round2, rhe, hf]
    norm_num
  · have hty : totalYears scExps = 30 / 12 := by norm_num [totalYears, scExps]
    have hrel : relevantCount scExps scJr.keywords = 0 := by decide
    have hlen : scExps.length = 1 := by decide
    simp only [calculate_experience_match, hty, hrel, hlen]
    rw [if_pos (by decide : 0 < scJr.experience_years)]
    have h5 : (scJr.experience_years : ℚ) = 5 := by norm_num [scJr]
    rw [h5]
    have harg : min ((30 : ℚ) / 12 / 5) 1 * 70 + ((0 : ℕ) : ℚ) / ((max 1 1 : ℕ) : ℚ) * 30
        = 35 := by
      rw [show max 1 1 = 1 from rfl]
      rw [min_eq_left (by norm_num)]
      norm_num
    rw [harg]
    have hf : ⌊(35 : ℚ) * 100⌋ = 3500 := by
      rw [Int.floor_eq_iff]
      norm_num
    simp only [round2, rhe, hf]
    norm_num

theorem experience_match_amended_case :
    (calculate_experience_match scExps scJr).score =
      round2 (min (totalYears scExps / (scJr.experience_years : ℚ)) 1 * 70 +
        (relevantCount scExps scJr.keywords : ℚ) / ((max scExps.length 1 : ℕ) : ℚ) * 30) :=
  (experience_match_amended scExps scJr).1 (by decide)

/-!
## Claim C10
-/

theorem parse_duration_months (s : Str) : (parse_duration s).duration_months = 0 := by
  unfold parse_duration
  split
  · rfl
  · split <;> rfl

theorem cleanExp1_months {x : PyVal} {e : CleanedExp} (h : cleanExp1 x = .ok e) :
    e.duration_info.duration_months = 0 := by
  unfold cleanExp1 at h
  obtain ⟨v1, _, h⟩ := ebind_eq_ok h
  obtain ⟨ti, _, h⟩ := ebind_eq_ok h
  obtain ⟨v2, _, h⟩ := ebind_eq_ok h
  obtain ⟨co, _, h⟩ := ebind_eq_ok h
  obtain ⟨v3, _, h⟩ := ebind_eq_ok h
  obtain ⟨du, _, h⟩ := ebind_eq_ok h
  obtain ⟨v4, _, h⟩ := ebind_eq_ok h
  obtain ⟨de, _, h⟩ := ebind_eq_ok h
  obtain ⟨v5, _, h⟩ := ebind_eq_ok h
  obtain ⟨lo, _, h⟩ := ebind_eq_ok h
  cases h
  exact parse_duration_months du

theorem cleanExpEntries_months {xs : List PyVal} {l : List CleanedExp}
    (h : cleanExpEntries xs = .ok l) : ∀ e ∈ l, e.duration_info.duration_months = 0 := by
  induction xs generalizing l with
  | nil =>
    unfold cleanExpEntries at h
    cases h
    simp
  | cons x t ih =>
    unfold cleanExpEntries at h
    by_cases hd : isDict x
    · rw [if_pos hd] at h
      obtain ⟨e1, he1, h⟩ := ebind_eq_ok h
      obtain ⟨rest, hrest, h⟩ := ebind_eq_ok h
      cases h
      intro e he
      rcases List.mem_cons.mp he with rfl | hm
      · exact cleanExp1_months he1
      · exact ih hrest e hm
    · rw [if_neg hd] at h
      exact ih h

theorem cleanProfileData_experience {raw : PyVal} {c : CleanedProfile}
    (h : cleanProfileData raw = .ok c) :
    ∀ e ∈ c.experience, e.duration_info.duration_months = 0 := by
  unfold cleanProfileData at h
  obtain ⟨v1, _, h⟩ := ebind_eq_ok h
  obtain ⟨nm, _, h⟩ := ebind_eq_ok h
  obtain ⟨v2, _, h⟩ := ebind_eq_ok h
  obtain ⟨hd, _, h⟩ := ebind_eq_ok h
  obtain ⟨v3, _, h⟩ := ebind_eq_ok h
  obtain ⟨lc, _, h⟩ := ebind_eq_ok h
  obtain ⟨v4, _, h⟩ := ebind_eq_ok h
  obtain ⟨ab, _, h⟩ := ebind_eq_ok h
  obtain ⟨ev, _, h⟩ := ebind_eq_ok h
  obtain ⟨exps, hexps, h⟩ := ebind_eq_ok h
  obtain ⟨dv, _, h⟩ := ebind_eq_ok h
  obtain ⟨edus, _, h⟩ := ebind_eq_ok h
  obtain ⟨sv, _, h⟩ := ebind_eq_ok h
  obtain ⟨sks, _, h⟩ := ebind_eq_ok h
  obtain ⟨cv, _, h⟩ := ebind_eq_ok h
  obtain ⟨conn, _, h⟩ := ebind_eq_ok h
  obtain ⟨url, _, h⟩ := ebind_eq_ok h
  cases h
  unfold cleanExperienceList at hexps
  obtain ⟨xs, _, hxs⟩ := ebind_eq_ok hexps
  exact cleanExpEntries_months hxs

/-- Conversion of a cleaned experience entry into the record read by
`_calculate_experience_match`. -/
def toMatchExp (e : CleanedExp) : MatchExp :=
  { title := e.title, description := e.description,
    duration_months := (e.duration_info.duration_months : ℚ) }

/-- C10: `parse_duration` always returns `duration_months = 0` (the field is
initialised to `0` and never written), so for every profile produced by
`clean_profile_data` the experience sub-score's accumulated `total_years`
is `0`, regardless of the profile's actual tenure. -/
theorem duration_months_zero :
    (∀ s, (parse_duration s).duration_months = 0) ∧
    (∀ raw c, cleanProfileData raw = .ok c → ∀ jr : JobReq,
      totalYears (c.experience.map toMatchExp) = 0 ∧
      (calculate_experience_match (c.experience.map toMatchExp) jr).total_experience = 0) := by
  refine ⟨parse_duration_months, fun raw c h jr => ?_⟩
  have hall := cleanProfileData_experience h
  have hty : totalYears (c.experience.map toMatchExp) = 0 := by
    unfold totalYears
    apply List.sum_eq_zero
    intro x hx
    simp only [List.map_map, List.mem_map] at hx
    obtain ⟨e, he, rfl⟩ := hx
    simp [Function.comp, toMatchExp, hall e he]
  refine ⟨hty, ?_⟩
  simp only [calculate_experience_match, hty]
  have hf : ⌊(0 : ℚ) * 10⌋ = 0 := by
    rw [Int.floor_eq_iff]
    norm_num
  simp only [round1, rhe, hf]
  norm_num

/-- A raw record with one real-tenure experience entry. -/
def rawDurW : PyVal :=
  .dict [(kExperience, .list [.dict [(kTitle, .str (S "Engineer")),
    (kDuration, .str (S "Jan 2020 - Dec 2022"))]])]

/-- The cleaned profile of `rawDurW` (evaluated; the fallback branch is
unreachable). -/
def cleanedDurW : CleanedProfile :=
  match cleanProfileData rawDurW with
  | .ok c => c
  | .error _ =>
    { name := [], headline := [], location := [], about := [], experience := [],
      education := [], skills := [], connections := 0, url := .str [] }

theorem duration_months_zero_case :
    totalYears (cleanedDurW.experience.map toMatchExp) = 0 ∧
    (calculate_experience_match (cleanedDurW.experience.map toMatchExp)
      { skills := [], keywords := [], experience_years := 5 }).total_experience = 0 :=
  duration_months_zero.2 rawDurW cleanedDurW rfl
    { skills := [], keywords := [], experience_years := 5 }

/-!
## Claim C9
-/

theorem cleanSkillsAux_invariant (xs : List PyVal) : ∀ seen : List Str,
    (∀ a ∈ cleanSkillsAux seen xs, lowerStr a ∉ seen) ∧
    (cleanSkillsAux seen xs).Pairwise (fun a b => lowerStr a ≠ lowerStr b) := by
  induction xs with
  | nil => intro seen; simp [cleanSkillsAux]
  | cons e es ih =>
    intro seen
    rw [cleanSkillsAux]
    by_cases hc : (!(if (pyStrOf e).isEmpty then ([] : Str) else cleanTextStr (pyStrOf e)).isEmpty
        && lowerStr (if (pyStrOf e).isEmpty then ([] : Str) else cleanTextStr (pyStrOf e)) ∉ seen)
        = true
    · simp only [hc, if_true]
      set cs := if (pyStrOf e).isEmpty then ([] : Str) else cleanTextStr (pyStrOf e) with hcs
      have hnotin : lowerStr cs ∉ seen := by
        have := (Bool.and_eq_true ..).mp hc
        exact of_decide_eq_true this.2
      obtain ⟨hseen, hpair⟩ := ih (lowerStr cs :: seen)
      refine ⟨?_, ?_⟩
      · intro a ha
        rcases List.mem_cons.mp ha with rfl | hm
        · exact hnotin
        · intro hin
          exact hseen a hm (List.mem_cons_of_mem _ hin)
      · refine List.Pairwise.cons ?_ hpair
        intro b hb heq
        exact hseen b hb (heq ▸ List.mem_cons_self _ _)
    · simp only [hc, if_false]
      exact ih seen

/-- C9: the skills sequence produced by `_clean_skills_list` — and hence the
`skills` field of every profile returned by `clean_profile_data` — contains
no two entries equal under case-insensitive comparison after cleaning. -/
theorem skills_dedup_invariant :
    (∀ v l, cleanSkillsList v = .ok l →
      l.Pairwise fun a b => lowerStr a ≠ lowerStr b) ∧
    (∀ raw c, cleanProfileData raw = .ok c →
      c.skills.Pairwise fun a b => lowerStr a ≠ lowerStr b) := by
  have hmain : ∀ v l, cleanSkillsList v = .ok l →
      l.Pairwise fun a b => lowerStr a ≠ lowerStr b := by
    intro v l h
    unfold cleanSkillsList at h
    split at h
    · cases h
      simp
    · obtain ⟨xs, _, hxs⟩ := ebind_eq_ok h
      cases hxs
      exact (cleanSkillsAux_invariant xs []).2
  refine ⟨hmain, fun raw c h => ?_⟩
  unfold cleanProfileData at h
  obtain ⟨v1, _, h⟩ := ebind_eq_ok h
  obtain ⟨nm, _, h⟩ := ebind_eq_ok h
  obtain ⟨v2, _, h⟩ := ebind_eq_ok h
  obtain ⟨hd, _, h⟩ := ebind_eq_ok h
  obtain ⟨v3, _, h⟩ := ebind_eq_ok h
  obtain ⟨lc, _, h⟩ := ebind_eq_ok h
  obtain ⟨v4, _, h⟩ := ebind_eq_ok h
  obtain ⟨ab, _, h⟩ := ebind_eq_ok h
  obtain ⟨ev, _, h⟩ := ebind_eq_ok h
  obtain ⟨exps, _, h⟩ := ebind_eq_ok h
  obtain ⟨dv, _, h⟩ := ebind_eq_ok h
  obtain ⟨edus, _, h⟩ := ebind_eq_ok h
  obtain ⟨sv, _, h⟩ := ebind_eq_ok h
  obtain ⟨sks, hsks, h⟩ := ebind_eq_ok h
  obtain ⟨cv, _, h⟩ := ebind_eq_ok h
  obtain ⟨conn, _, h⟩ := ebind_eq_ok h
  obtain ⟨url, _, h⟩ := ebind_eq_ok h
  cases h
  exact hmain sv sks hsks

theorem skills_dedup_invariant_case :
    ([S "Python", S "Java"]).Pairwise (fun a b => lowerStr a ≠ lowerStr b) :=
  skills_dedup_invariant.1
    (.list [.str (S "Python"), .str (S "PYTHON"), .str (S "Java")])
    [S "Python", S "Java"] rfl

/-!
## Claim C8
-/

/-- C8 (counterexample): normalization is not total.  A record whose `name`
field holds a (truthy) integer makes `_clean_text` run `re.sub` on a
non-string, which raises — `clean_profile_data` fails instead of returning a
Profile. -/
theorem clean_profile_never_fails_cx :
    cleanProfileData (.dict [(kName, .int 1)]) = .error .typeError ∧
    cleanProfileData (.dict [(kExperience, .int 5)]) = .error .typeError :=
  ⟨rfl, rfl⟩

/-- C8 (amended): inside the experience/education list fields each
individual non-mapping entry is skipped and normalization continues with the
rest; on an empty record normalization succeeds with the all-empty Profile.
The call is, however, not total: a top-level field of an unexpected type
(for instance an integer `name` or integer `experience`) raises. -/
theorem clean_profile_skip_amended :
    (∀ xs, cleanExpEntries xs = cleanExpEntries (xs.filter isDict)) ∧
    (∀ xs, cleanEduEntries xs = cleanEduEntries (xs.filter isDict)) ∧
    (∀ xs, cleanExperienceList (.list xs) = cleanExpEntries xs) ∧
    (∀ xs, cleanEducationList (.list xs) = cleanEduEntries xs) ∧
    cleanProfileData (.dict []) = .ok
      { name := [], headline := [], location := [], about := [], experience := [],
        education := [], skills := [], connections := 0, url := .str [] } := by
  refine ⟨?_, ?_, fun xs => rfl, fun xs => rfl, rfl⟩
  · intro xs
    induction xs with
    | nil => rfl
    | cons x t ih =>
      by_cases hd : isDict x
      · simp only [cleanExpEntries, List.filter_cons, hd, if_true, ih]
      · simp only [cleanExpEntries, List.filter_cons, hd, if_false, ih,
          Bool.false_eq_true]
  · intro xs
    induction xs with
    | nil => rfl
    | cons x t ih =>
      by_cases hd : isDict x
      · simp only [cleanEduEntries, List.filter_cons, hd, if_true, ih]
      · simp only [cleanEduEntries, List.filter_cons, hd, if_false, ih,
          Bool.false_eq_true]

/-!
## Claim C6
-/

theorem toLower_ofRange (n : Nat) (h1 : 65 ≤ n) (h2 : n ≤ 90) :
    Char.toLower (Char.ofNat (n + 32)) = Char.ofNat (n + 32) := by
  interval_cases n <;> decide

theorem toLower_idem (c : Char) : c.toLower.toLower = c.toLower := by
  by_cases h : 65 ≤ c.toNat ∧ c.toNat ≤ 90
  · have h1 : c.toLower = Char.ofNat (c.toNat + 32) := by
      unfold Char.toLower
      rw [if_pos]
      exact ⟨h.1, h.2⟩
    rw [h1]
    exact toLower_ofRange c.toNat h.1 h.2
  · have h1 : c.toLower = c := by
      unfold Char.toLower
      rw [if_neg]
      intro hc
      exact h ⟨hc.1, hc.2⟩
    rw [h1, h1]

theorem lowerStr_idem (s : Str) : lowerStr (lowerStr s) = lowerStr s := by
  unfold lowerStr
  rw [List.map_map]
  exact List.map_congr_left fun c _ => toLower_idem c

theorem areSkillsSimilar_iff (p j : Str) (hp : lowerStr p = p) (hj : lowerStr j = j) :
    areSkillsSimilar p j = true ↔
      (synonymEquiv p j ∨ isInfixB p j = true ∨ isInfixB j p = true) := by
  simp only [areSkillsSimilar, hp, hj, synonymEquiv, Bool.or_eq_true, List.any_eq_true,
    Bool.and_eq_true, beq_iff_eq, List.contains, List.elem_iff, or_assoc]

theorem gapMatches_iff (ps : List Str) (j : Str) (hj : lowerStr j = j) :
    gapMatches (ps.map lowerStr) j = true ↔
      ∃ p ∈ ps.map lowerStr,
        (p = j ∨ synonymEquiv p j ∨ isInfixB p j = true ∨ isInfixB j p = true) := by
  simp only [gapMatches, Bool.or_eq_true, List.any_eq_true, List.contains, List.elem_iff]
  constructor
  · rintro (hc | ⟨p, hp, hsim⟩)
    · exact ⟨j, hc, Or.inl rfl⟩
    · have hplow : lowerStr p = p := by
        obtain ⟨p0, _, rfl⟩ := List.mem_map.mp hp
        exact lowerStr_idem p0
      exact ⟨p, hp, Or.inr ((areSkillsSimilar_iff p j hplow hj).mp hsim)⟩
  · rintro ⟨p, hp, (rfl | hrest)⟩
    · exact Or.inl hp
    · have hplow : lowerStr p = p := by
        obtain ⟨p0, _, rfl⟩ := List.mem_map.mp hp
        exact lowerStr_idem p0
      exact Or.inr ⟨p, hp, (areSkillsSimilar_iff p j hplow hj).mpr hrest⟩

/-- C6: after case-folding both sides, a job skill is classified matching by
`find_skill_gaps` exactly when it equals some profile skill verbatim, is
synonym-equivalent to one through the fixed table, or one of the two strings
is a substring of the other; in particular `["Node.js"]` against
`["javascript"]` matches via the synonym table with
`match_percentage = 100`. -/
theorem skill_gap_matching_iff :
    (∀ ps js j, j ∈ (find_skill_gaps ps js).matching_skills ↔
      (j ∈ js.map lowerStr ∧ ∃ p ∈ ps.map lowerStr,
        (p = j ∨ synonymEquiv p j ∨ isInfixB p j = true ∨ isInfixB j p = true))) ∧
    (find_skill_gaps [S "Node.js"] [S "javascript"]).matching_skills = [S "javascript"] ∧
    (find_skill_gaps [S "Node.js"] [S "javascript"]).match_percentage = 100 := by
  refine ⟨fun ps js j => ?_, by decide, ?_⟩
  · unfold find_skill_gaps
    simp only [List.mem_filter]
    constructor
    · rintro ⟨hj, hg⟩
      have hjlow : lowerStr j = j := by
        obtain ⟨j0, _, rfl⟩ := List.mem_map.mp hj
        exact lowerStr_idem j0
      exact ⟨hj, (gapMatches_iff ps j hjlow).mp hg⟩
    · rintro ⟨hj, hex⟩
      have hjlow : lowerStr j = j := by
        obtain ⟨j0, _, rfl⟩ := List.mem_map.mp hj
        exact lowerStr_idem j0
      exact ⟨hj, (gapMatches_iff ps j hjlow).mpr hex⟩
  · have h1 : ((find_skill_gaps [S "Node.js"] [S "javascript"]).matching_skills).length = 1 := by
      decide
    unfold find_skill_gaps at h1 ⊢
    simp only at h1 ⊢
    rw [h1]
    norm_num

theorem skill_gap_matching_iff_case :
    S "javascript" ∈ (find_skill_gaps [S "Node.js"] [S "javascript"]).matching_skills :=
  (skill_gap_matching_iff.1 [S "Node.js"] [S "javascript"] (S "javascript")).mpr
    ⟨by decide, S "node.js", by decide,
     Or.inr (Or.inl ⟨(S "javascript", [S "js", S "ecmascript", S "node.js", S "nodejs"]),
       by decide, Or.inr (by decide), Or.inl rfl⟩)⟩

/-!
## Claim C2
-/

theorem condLenGt_str (s : Str) (n : Nat) :
    condLenGt (.str s) n = .ok (decide (n < s.length)) := by
  cases s with
  | nil => simp [condLenGt, truthy]
  | cons c t => simp [condLenGt, truthy, pyLen]

theorem ite_truthy_str (s : Str) :
    (if truthy (.str s) then (1 : ℕ) else 0) = (if s ≠ [] then 1 else 0) := by
  cases s <;> simp [truthy]

theorem ite_truthy_list {α : Type} [DecidableEq α] (f : α → PyVal) (xs : List α) :
    (if truthy (.list (xs.map f)) then (1 : ℕ) else 0) = (if xs ≠ [] then 1 else 0) := by
  cases xs <;> simp [truthy]

theorem ite_decide (c : Prop) [Decidable c] :
    (if decide c = true then (1 : ℕ) else 0) = (if c then 1 else 0) := by
  by_cases h : c <;> simp [h]

/-- C2: for every cleaned profile, the completeness score is exactly the
number of satisfied rubric checks divided by ten and scaled to `100`; it
lies in `[0, 100]` and is a multiple of ten. -/
theorem completeness_rubric_spec (p : CleanedProfile) :
    calcCompleteness (encodeProfile p) = .ok ((rubricCount p : ℚ) / 10 * 100) ∧
    0 ≤ (rubricCount p : ℚ) / 10 * 100 ∧ (rubricCount p : ℚ) / 10 * 100 ≤ 100 ∧
    ∃ k : ℕ, (rubricCount p : ℚ) / 10 * 100 = 10 * (k : ℚ) := by
  have hle : rubricCount p ≤ 10 := by
    unfold rubricCount
    have h1 := ite_one_zero_le (p.name ≠ [])
    have h2 := ite_one_zero_le (p.headline ≠ [])
    have h3 := ite_one_zero_le (50 < p.about.length)
    have h4 := ite_one_zero_le (200 < p.about.length)
    have h5 := ite_one_zero_le (1 ≤ p.experience.length)
    have h6 := ite_one_zero_le (2 ≤ p.experience.length)
    have h7 := ite_one_zero_le (p.education ≠ [])
    have h8 := ite_one_zero_le (5 ≤ p.skills.length)
    have h9 := ite_one_zero_le (10 ≤ p.skills.length)
    have h10 := ite_one_zero_le (p.location ≠ [])
    omega
  refine ⟨?_, by positivity, ?_, ⟨rubricCount p, by ring⟩⟩
  · unfold calcCompleteness
    rw [pyGet_encode_name, pyGet_encode_headline, pyGet_encode_about,
        pyGet_encode_experience, pyGet_encode_education, pyGet_encode_skills,
        pyGet_encode_location]
    simp only [ebind_ok, condLenGt_str, pyLen, List.length_map]
    unfold rubricCount
    simp only [ite_truthy_str, ite_truthy_list, ite_decide]
  · have hc : (rubricCount p : ℚ) ≤ 10 := by exact_mod_cast hle
    have heq : (rubricCount p : ℚ) / 10 * 100 = 10 * (rubricCount p : ℚ) := by ring
    rw [heq]
    linarith

/-!
## Claim C3
-/

theorem collectExpTexts_encode (es : List CleanedExp) :
    collectExpTexts (es.map encodeExp) = .ok ((expTexts es).map PyVal.str) := by
  induction es with
  | nil => rfl
  | cons e t ih =>
    simp only [List.map_cons, collectExpTexts, pyGet_encodeExp_description,
      pyGet_encodeExp_title, ebind_ok, ih, expTexts]

theorem pyJoinSpace_map_str (l : List Str) :
    pyJoinSpace (l.map PyVal.str) = .ok (joinSpace l) := by
  induction l with
  | nil => rfl
  | cons x t ih =>
    cases t with
    | nil => rfl
    | cons y u =>
      simp only [List.map_cons] at ih ⊢
      rw [pyJoinSpace, ih]
      simp [joinSpace]

theorem extractAllText_encode (p : CleanedProfile) :
    extractAllText (encodeProfile p) = .ok (profileText p) := by
  unfold extractAllText profileText
  rw [pyGet_encode_headline, pyGet_encode_about, pyGet_encode_experience,
      pyGet_encode_skills]
  simp only [ebind_ok, pyIter, collectExpTexts_encode]
  rw [show (PyVal.str p.headline :: PyVal.str p.about ::
        ((expTexts p.experience).map PyVal.str ++ p.skills.map PyVal.str)) =
      (p.headline :: p.about :: (expTexts p.experience ++ p.skills)).map PyVal.str by
    simp]
  exact pyJoinSpace_map_str _

/-- C3: the job-match score is `0` whenever the job description is empty or
its extracted keyword set (alphabetic runs of length ≥ 4) is empty, and
otherwise equals `min(matches/|keywords| · 100, 100)` where `matches` counts
the keywords occurring case-insensitively as substrings of the concatenated
profile text; in all cases it lies in `[0, 100]`. -/
theorem job_match_score_spec (p : CleanedProfile) (jd : Str) :
    ∃ q : ℚ, calcJobMatch (encodeProfile p) jd = .ok q ∧ 0 ≤ q ∧ q ≤ 100 ∧
      ((jd = [] ∨ jobKeywordSet jd = []) → q = 0) ∧
      (jobKeywordSet jd ≠ [] →
        q = min ((jobMatchCount p jd : ℚ) / ((jobKeywordSet jd).length : ℚ) * 100) 100) := by
  by_cases hjd : jd = []
  · refine ⟨0, ?_, le_refl 0, by norm_num, fun _ => rfl, fun hk => absurd ?_ hk⟩
    · simp [calcJobMatch, hjd]
    · rw [hjd]
      rfl
  · unfold calcJobMatch
    rw [if_neg (by simpa using hjd), extractAllText_encode]
    simp only [ebind_ok]
    by_cases hk : jobKeywordSet jd = []
    · refine ⟨0, ?_, le_refl 0, by norm_num, fun _ => rfl, fun hk2 => absurd hk hk2⟩
      rw [show dedupFirst (alphaTokens 4 (lowerStr jd)) = jobKeywordSet jd from rfl, hk]
      simp
    · have hki : (dedupFirst (alphaTokens 4 (lowerStr jd))).isEmpty = false := by
        rw [show dedupFirst (alphaTokens 4 (lowerStr jd)) = jobKeywordSet jd from rfl]
        cases h : jobKeywordSet jd with
        | nil => exact absurd h hk
        | cons a t => rfl
      refine ⟨_, ?_, ?_, ?_, ?_, fun _ => rfl⟩
      · rw [hki]
        simp only [Bool.false_eq_true, if_false]
        rfl
      · refine le_min (by positivity) (by norm_num)
      · exact min_le_right _ _
      · rintro (h | h)
        · exact absurd h hjd
        · exact absurd h hk

/-- A profile whose only content is the skill `python`. -/
def jmProfileW : CleanedProfile :=
  { name := [], headline := [], location := [], about := [], experience := [],
    education := [], skills := [S "python"], connections := 0, url := .str [] }

theorem job_match_score_spec_case :
    calcJobMatch (encodeProfile jmProfileW) (S "python developer") = .ok 50 := by
  obtain ⟨q, hq, _, _, _, hf⟩ := job_match_score_spec jmProfileW (S "python developer")
  rw [hf (by decide)] at hq
  have hm : jobMatchCount jmProfileW (S "python developer") = 1 := by decide
  have hl : (jobKeywordSet (S "python developer")).length = 2 := by decide
  rw [hm, hl] at hq
  rw [hq]
  norm_num

/-!
## Claim C7
-/

/-- C7: `_analyze_keywords` always returns a found list that is a subset of
the fixed 12-term vocabulary with `keyword_density` equal to its length, and
a missing list of at most five entries which is empty for an empty job
description and otherwise consists of tokens of length `> 3` absent from the
profile text, drawn (order-preservingly, hence in descending-frequency
order) from the ten most frequent alphabetic tokens of the job
description. -/
theorem keyword_analysis_spec (p : CleanedProfile) (jd : Str) :
    ∃ ka, analyzeKeywords (encodeProfile p) jd = .ok ka ∧
      (∀ k ∈ ka.found_keywords, k ∈ techKeywords) ∧
      ka.keyword_density = ka.found_keywords.length ∧
      ka.missing_keywords.length ≤ 5 ∧
      (jd = [] → ka.missing_keywords = []) ∧
      ka.missing_keywords.Sublist (mostCommon 10 (alphaTokens 3 (lowerStr jd))) ∧
      (∀ t ∈ ka.missing_keywords, 3 < t.length ∧
        isInfixB t (lowerStr (profileText p)) = false) := by
  unfold analyzeKeywords
  rw [extractAllText_encode]
  simp only [ebind_ok]
  refine ⟨_, rfl, fun k hk => (List.mem_filter.mp hk).1, rfl, ?_, ?_, ?_, ?_⟩
  · exact List.length_take_le _ _
  · intro h
    subst h
    rfl
  · by_cases hjd : jd.isEmpty
    · rw [if_pos hjd]
      exact List.nil_sublist _
    · rw [if_neg hjd]
      exact (List.take_sublist _ _).trans (List.filter_sublist _)
  · intro t ht
    by_cases hjd : jd.isEmpty
    · rw [if_pos hjd] at ht
      simp at ht
    · rw [if_neg hjd] at ht
      have ht2 := (List.take_sublist _ _).subset ht
      have hpred := (List.mem_filter.mp ht2).2
      rw [Bool.and_eq_true] at hpred
      refine ⟨of_decide_eq_true hpred.2, ?_⟩
      have hni := hpred.1
      rwa [Bool.not_eq_true'] at hni

/-- An entirely empty profile, for the keyword-analysis witness. -/
def kaProfileW : CleanedProfile :=
  { name := [], headline := [], location := [], about := [], experience := [],
    education := [], skills := [], connections := 0, url := .str [] }

theorem keyword_analysis_spec_case :
    3 < (S "django").length ∧
    isInfixB (S "django") (lowerStr (profileText kaProfileW)) = false := by
  obtain ⟨ka, hka, _, _, _, _, _, hmem⟩ :=
    keyword_analysis_spec kaProfileW (S "django django developer")
  have hconc : analyzeKeywords (encodeProfile kaProfileW) (S "django django developer") =
      .ok { found_keywords := [], missing_keywords := [S "django", S "developer"],
            keyword_density := 0 } := by rfl
  rw [hconc] at hka
  injection hka with hka2
  subst hka2
  exact hmem (S "django") (by decide)
